import Mathlib

/-!
Shallow embedding of the email-reply-tracker sync-and-classify pipeline.

Sources embedded here:
- `src/unnamed/part_001` (`GeminiService`: `classifyEmail`, `detectSpamPatterns`,
  `buildPrompt`, `parseGeminiResponse`);
- `src/unnamed/part_000` (`GmailService`: `listMessages`, `parseMessage`, `extractBody`);
- `src/backend/src/routes/sync.routes.ts` (the single-mailbox sync route
  `POST /mailbox/:mailboxId` and the fleet route `POST /all`).

External runtimes (the JavaScript `Date` constructor, `JSON.parse`, base64
decoding, the Gmail and Gemini HTTP endpoints, and the Supabase store's
write success/failure) are modelled as explicit oracles/parameters; the
control flow around them is translated from the TypeScript source.
-/

/-! ## JavaScript value model -/

/-- A JavaScript runtime value as far as this pipeline observes one:
`undefined`, `null`, numbers (as exact rationals; JSON never produces NaN),
strings and booleans. -/
inductive JsValue where
  | undefined : JsValue
  | null : JsValue
  | num : Rat → JsValue
  | str : String → JsValue
  | boolean : Bool → JsValue
deriving DecidableEq

/-- JavaScript falsiness for the values of `JsValue`:
`undefined`, `null`, `0`, `""` and `false` are falsy. -/
def jsFalsy : JsValue → Bool
  | .undefined => true
  | .null => true
  | .num q => q = 0
  | .str s => s = ""
  | .boolean b => !b

/-- The JavaScript `a || b` operator on runtime values. -/
def jsOr (a b : JsValue) : JsValue := if jsFalsy a then b else a

/-- The JavaScript `a || b` operator specialised to strings
(`""` is the only falsy string). -/
def jsOrStr (a b : String) : String := if a = "" then b else a

/-! ## Spam/heuristic pre-filter (`GeminiService.detectSpamPatterns`)

The regular expression `/\b[A-Z0-9]{6,8}\b/gi` is embedded as a direct
scanner: `\w` (for `\b`) is ASCII letters, digits and underscore; the
character class (case-insensitively) is ASCII letters and digits; at each
position with a word boundary before it the engine tries lengths 8, 7, 6
(greedy with backtracking) and requires a word boundary after the match;
matching resumes after a successful match (`g` flag). -/

/-- A JavaScript word character (`\w`): ASCII letter, digit or underscore. -/
def isWordChar (c : Char) : Bool := c.isAlpha || c.isDigit || c == '_'

/-- A character matched by `[A-Z0-9]` under the `i` flag: ASCII letter or digit. -/
def isCodeChar (c : Char) : Bool := c.isAlpha || c.isDigit

/-- Word boundary between a code character and the rest of the input:
holds at end of input or before a non-word character. -/
def boundaryAfter : List Char → Bool
  | [] => true
  | c :: _ => !isWordChar c

/-- Does a match of exactly `n` code characters, followed by a word
boundary, start at the head of `cs`? -/
def okLen (cs : List Char) (n : Nat) : Bool :=
  decide ((cs.take n).length = n) && (cs.take n).all isCodeChar && boundaryAfter (cs.drop n)

/-- All matches of `/\b[A-Z0-9]{6,8}\b/gi` in order, scanning left to right.
`prev` is the character before the current position (`none` at the start).
The scan consumes at least one character per step, so the structural
`fuel` counter (started at the input length by `scanCodes`) never runs
out. -/
def scanCodesFuel : Nat → Option Char → List Char → List String
  | 0, _, _ => []
  | _, _, [] => []
  | fuel + 1, prev, c :: rest =>
    let bOk := match prev with
      | none => true
      | some p => !isWordChar p
    if bOk && okLen (c :: rest) 8 then
      String.mk ((c :: rest).take 8) ::
        scanCodesFuel fuel (some (((c :: rest).take 8).getLastD c)) ((c :: rest).drop 8)
    else if bOk && okLen (c :: rest) 7 then
      String.mk ((c :: rest).take 7) ::
        scanCodesFuel fuel (some (((c :: rest).take 7).getLastD c)) ((c :: rest).drop 7)
    else if bOk && okLen (c :: rest) 6 then
      String.mk ((c :: rest).take 6) ::
        scanCodesFuel fuel (some (((c :: rest).take 6).getLastD c)) ((c :: rest).drop 6)
    else
      scanCodesFuel fuel (some c) rest

/-- The global regex match over `cs` starting with the given previous
character context. -/
def scanCodes (prev : Option Char) (cs : List Char) : List String :=
  scanCodesFuel cs.length prev cs

/-- Does `hay` start with `pat`? -/
def startsWithList : List Char → List Char → Bool
  | [], _ => true
  | _ :: _, [] => false
  | p :: ps, c :: cs => p == c && startsWithList ps cs

/-- Does `hay` contain `pat` as a contiguous substring
(the JavaScript `String.includes`)? -/
def listContainsSub (hay pat : List Char) : Bool :=
  startsWithList pat hay ||
    match hay with
    | [] => false
    | _ :: t => listContainsSub t pat

/-- The JavaScript `toLowerCase()` (ASCII range), as the character map
underlying `String.toLower`. -/
def toLowerStr (s : String) : String := String.mk (s.data.map Char.toLower)

/-- Result record of the pre-filter (`{ isSpam, reason }`). -/
structure SpamCheck where
  isSpam : Bool
  reason : String
deriving DecidableEq

/-- The fixed generic-inquiry phrases of pattern 3 of the pre-filter. -/
def spamPhrases : List String :=
  ["who should i call", "who do i speak with", "who handles", "who is responsible for"]

/-- Embedding of `GeminiService.detectSpamPatterns(subject, body)`
(src/unnamed/part_001 lines 95-137): pattern 1 fires on two or more
matches of the code regex in the lowercased `subject + " " + body`;
pattern 2 fires on one or more matches in the raw subject; pattern 3
fires on a spam phrase in the lowercased text together with at least one
code match. -/
def detectSpamPatterns (subject body : String) : SpamCheck :=
  let text := toLowerStr (subject ++ " " ++ body)
  let codes := scanCodes none text.data
  if codes.length ≥ 2 then
    { isSpam := true
      reason := "Spam detected: Contains random tracking codes (" ++
        String.intercalate ", " (codes.take 2) ++ ")" }
  else
    let subjectCodes := scanCodes none subject.data
    if subjectCodes.length ≥ 1 then
      { isSpam := true
        reason := "Spam detected: Subject contains tracking code (" ++
          subjectCodes.headD "" ++ ")" }
    else
      let hasSpamPhrase := spamPhrases.any (fun p => listContainsSub text.data p.data)
      if hasSpamPhrase && codes.length ≥ 1 then
        { isSpam := true
          reason := "Spam detected: Generic question with tracking code (" ++
            codes.headD "" ++ ")" }
      else
        { isSpam := false, reason := "" }

/-! ## Classifier adapter (`GeminiService`, src/unnamed/part_001) -/

/-- The classifier result record (`ClassificationResult`). At runtime the
fields are whatever JavaScript values the response JSON supplied (the
TypeScript annotations are not enforced), so every field is a `JsValue`. -/
structure ClassificationResult where
  sentiment : JsValue
  interest_level : JsValue
  summary : JsValue
  recommended_action : JsValue
  category : JsValue
  confidence_score : JsValue
deriving DecidableEq

/-- The backtick character (code 96). -/
def backtick : Char := Char.ofNat 96

/-- The opening curly-brace character (code 123). -/
def lbrace : Char := Char.ofNat 123

/-- The closing curly-brace character (code 125). -/
def rbrace : Char := Char.ofNat 125

/-- The character list matched by the literal part of the regex
pattern for a markdown json fence (three backticks and "json"). -/
def fenceJsonTag : List Char := [backtick, backtick, backtick, 'j', 's', 'o', 'n']

/-- The character list of a bare markdown fence (three backticks). -/
def fenceTag : List Char := [backtick, backtick, backtick]

/-- Drop one leading newline if present (the `\n?` part of the fence
regexes). -/
def dropNl : List Char → List Char
  | '\n' :: rs => rs
  | rs => rs

/-- Global replacement of the pattern `tag` followed by an optional
newline with the empty string, scanning left to right without overlap
(the JavaScript `text.replace(/tag\n?/g, '')` for a literal `tag` given
as first character plus rest). -/
def stripTagAux (t0 : Char) (ts : List Char) : List Char → List Char
  | [] => []
  | c :: cs =>
    if startsWithList (t0 :: ts) (c :: cs) then
      stripTagAux t0 ts (dropNl (cs.drop ts.length))
    else
      c :: stripTagAux t0 ts cs
termination_by l => l.length
decreasing_by
  all_goals simp only [List.length_cons]
  · have h2 : ∀ (n : Nat) (l : List Char), (dropNl (List.drop n l)).length < l.length + 1 := by
      intro n l
      have h0 : ∀ (m : List Char), (dropNl m).length ≤ m.length := by
        intro m
        unfold dropNl
        split <;> simp_all
      have h1 := h0 (List.drop n l)
      have h3 := List.length_drop n l
      omega
    exact h2 _ _
  · exact Nat.lt_succ_self _

/-- Global replacement of a literal nonempty `tag` (plus optional
trailing newline) with the empty string. An empty `tag` is returned
unchanged (the source only uses the two concrete fence tags). -/
def stripTag (tag : List Char) (s : List Char) : List Char :=
  match tag with
  | [] => s
  | t0 :: ts => stripTagAux t0 ts s

/-- The JavaScript `cleanText.match(/\{[\s\S]*\}/)`: the substring from
the first `{` through the last `}` after it, if any. -/
def extractBraces (s : List Char) : Option (List Char) :=
  let tail := s.dropWhile (fun c => c != lbrace)
  match tail with
  | [] => none
  | _ =>
    let rev2 := tail.reverse.dropWhile (fun c => c != rbrace)
    match rev2 with
    | [] => none
    | _ => some rev2.reverse

/-- The response-text cleaning pipeline of
`GeminiService.parseGeminiResponse` (src/unnamed/part_001 lines 200-208):
strip markdown fences, trim, then keep the first-to-last brace block when
one exists. -/
def cleanResponseText (text : String) : String :=
  let s1 := stripTag fenceJsonTag text.data
  let s2 := stripTag fenceTag s1
  let cleaned := (String.mk s2).trim
  match extractBraces cleaned.data with
  | some m => String.mk m
  | none => cleaned

/-- The six fields the parser reads off the object returned by
`JSON.parse` (missing properties read as `undefined`; a non-object parse
result makes every property access yield `undefined`). -/
structure ParsedFields where
  sentiment : JsValue
  interest_level : JsValue
  summary : JsValue
  recommended_action : JsValue
  category : JsValue
  confidence_score : JsValue
deriving DecidableEq

/-- The degraded result returned when `JSON.parse` throws
(src/unnamed/part_001 lines 226-233). -/
def degradedResult : ClassificationResult :=
  { sentiment := .str "neutral"
    interest_level := .str "none"
    summary := .str "Failed to analyze email - Invalid AI response format"
    recommended_action := .str "Review manually"
    category := .str "other"
    confidence_score := .num 0 }

/-- Embedding of `GeminiService.parseGeminiResponse(text)`
(src/unnamed/part_001 lines 199-235). `jsonParse` is the oracle for the
JavaScript `JSON.parse`; `none` means it throws, which the `catch`
turns into `degradedResult`. On success each field is defaulted through
`||`. -/
def parseGeminiResponse (jsonParse : String → Option ParsedFields)
    (text : String) : ClassificationResult :=
  let cleanText := cleanResponseText text
  match jsonParse cleanText with
  | none => degradedResult
  | some parsed =>
    { sentiment := jsOr parsed.sentiment (.str "neutral")
      interest_level := jsOr parsed.interest_level (.str "none")
      summary := jsOr parsed.summary (.str "No summary available")
      recommended_action := jsOr parsed.recommended_action (.str "Review manually")
      category := jsOr parsed.category (.str "other")
      confidence_score := jsOr parsed.confidence_score (.num 0.5) }

/-- Embedding of `GeminiService.buildPrompt(emailBody, subject)`
(src/unnamed/part_001 lines 139-197). -/
def buildPrompt (emailBody subject : String) : String :=
  "You are an assistant that classifies replies to B2B outbound sales emails.\n\nGiven the EMAIL below, respond in valid JSON only with these fields:\n- sentiment: one of [\"positive\", \"warm\", \"neutral\", \"negative\", \"auto_reply\", \"out_of_office\", \"spam\"]\n- interest_level: one of [\"high\", \"medium\", \"low\", \"none\"]\n- summary: short 1-2 sentence summary of the email\n- recommended_action: short suggestion for the sales team (max 20 words)\n- category: high-level tag like \"demo_request\", \"pricing\", \"not_interested\", \"follow_up_later\", \"job_application\", \"other\"\n- confidence_score: a number between 0 and 1 indicating your confidence in the classification\n\nClassification Guidelines:\n\n**POSITIVE** - Clear interest, wants to move forward:\n- Requesting demo, call, meeting, or pricing\n- \"Let\x27s schedule a call\", \"I\x27m interested\", \"Send me more info\"\n\n**WARM** - Polite response with potential future interest:\n- \"Not right now, but maybe later\"\n- \"Keep us in mind for the future\"\n- \"We\x27ll reach out if needed\"\n- \"Thank you, we\x27ll consider it\"\n- Polite acknowledgment with door left open\n\n**NEUTRAL** - Simple acknowledgment without clear sentiment:\n- Generic \"Thank you for reaching out\"\n- No indication of interest or disinterest\n\n**NEGATIVE** - Clear rejection with no future interest:\n- \"Not interested\", \"Please remove us\", \"Stop contacting\"\n- Harsh or rude rejection\n- Explicit request to stop communication\n\n**AUTO_REPLY** - Automated response:\n- Auto-responders, chatbots\n- Bounce-back emails (e.g., \"Undelivered Mail\", \"Mail Delivery Failed\", \"Returned to Sender\")\n- \"Thank you for contacting us\" automated messages\n- Email delivery failure notifications\n- System-generated messages\n\n**OUT_OF_OFFICE** - Out of office message (human-set auto-reply)\n\n**SPAM** - Spam, unrelated, or junk email:\n- Emails with random tracking codes (e.g., \"6PZGMYD\", \"J4C5BVX\")\n- Generic questions with tracking codes like \"who should I call | CODE123\"\n- Unrelated marketing or promotional content\n- Suspicious or phishing attempts\n\nIMPORTANT: If the email is polite and mentions \"future\", \"later\", \"keep in touch\", or \"reach out if needed\", classify as WARM, not negative!\n\nSUBJECT: " ++ subject ++ "\n\nEMAIL TEXT:\n\"\"\"\n" ++ emailBody ++ "\n\"\"\"\n\nRespond with ONLY valid JSON, no other text."

/-- One part of a Gemini response candidate's content. -/
structure GemPart where
  text : String
deriving DecidableEq

/-- The content of a Gemini response candidate (`parts` may be absent). -/
structure GemContent where
  parts : Option (List GemPart)
deriving DecidableEq

/-- One Gemini response candidate (`content` may be absent). -/
structure GemCandidate where
  content : Option GemContent
deriving DecidableEq

/-- The Gemini response envelope (`candidates` may be absent). -/
structure GemResponse where
  candidates : Option (List GemCandidate)
deriving DecidableEq

instance {ε α : Type} [DecidableEq ε] [DecidableEq α] : DecidableEq (Except ε α) :=
  fun x y =>
    match x, y with
    | .ok a, .ok b =>
      if h : a = b then .isTrue (by rw [h])
      else .isFalse (by intro hc; cases hc; exact h rfl)
    | .ok _, .error _ => .isFalse (by intro hc; cases hc)
    | .error _, .ok _ => .isFalse (by intro hc; cases hc)
    | .error a, .error b =>
      if h : a = b then .isTrue (by rw [h])
      else .isFalse (by intro hc; cases hc; exact h rfl)

/-- Return value of the classifier adapter: the result (or the rethrown
error message) together with how many times the external API was called. -/
structure ClassifyOut where
  result : Except String ClassificationResult
  apiCalls : Nat
deriving DecidableEq

/-- Embedding of `GeminiService.classifyEmail(emailBody, subject)`
(src/unnamed/part_001 lines 24-93). `api` is the oracle for the HTTP call
to the Gemini endpoint (`Except.error` means the request rejected);
`jsonParse` is the `JSON.parse` oracle. Every failure inside the `try`
block is rethrown by the `catch` as `"Failed to classify email"`. The
spam pre-filter short-circuits before any API call. -/
def classifyEmail (api : String → Except Unit GemResponse)
    (jsonParse : String → Option ParsedFields)
    (emailBody subject : String) : ClassifyOut :=
  let spamCheck := detectSpamPatterns subject emailBody
  if spamCheck.isSpam then
    { result := .ok
        { sentiment := .str "spam"
          interest_level := .str "none"
          summary := .str spamCheck.reason
          recommended_action := .str "Mark as spam and ignore"
          category := .str "spam"
          confidence_score := .num 0.95 }
      apiCalls := 0 }
  else
    match api (buildPrompt emailBody subject) with
    | .error _ => { result := .error "Failed to classify email", apiCalls := 1 }
    | .ok resp =>
      match resp.candidates with
      | none => { result := .error "Failed to classify email", apiCalls := 1 }
      | some [] => { result := .error "Failed to classify email", apiCalls := 1 }
      | some (cand :: _) =>
        match cand.content with
        | none => { result := .error "Failed to classify email", apiCalls := 1 }
        | some content =>
          match content.parts with
          | none => { result := .error "Failed to classify email", apiCalls := 1 }
          | some [] => { result := .error "Failed to classify email", apiCalls := 1 }
          | some (part :: _) =>
            { result := .ok (parseGeminiResponse jsonParse part.text), apiCalls := 1 }

/-! ## Message normalizer (`GmailService`, src/unnamed/part_000) -/

/-- A JavaScript `Date` value as this pipeline distinguishes them:
`current` is `new Date()` (the current time at normalization);
`ofString s` is `new Date(s)` (which is an Invalid Date when the
JavaScript date parser cannot parse `s`). -/
inductive JsDate where
  | current : JsDate
  | ofString : String → JsDate
deriving DecidableEq

/-- One Gmail header object (`name` and `value` may each be absent). -/
structure GmailHeader where
  name : Option String
  value : Option String
deriving DecidableEq

/-- A Gmail message part (`gmail_v1.Schema$MessagePart`): mime type,
base64 body data (`body?.data`), headers, and nested `parts`. All fields
may be absent; an absent `parts` is distinguished from an empty list
(`[]` is truthy in JavaScript, `undefined` is not). -/
inductive MessagePart where
  | mk : Option String → Option String → Option (List GmailHeader) →
      Option (List MessagePart) → MessagePart

/-- Mime type of a part. -/
def MessagePart.mimeType : MessagePart → Option String
  | .mk m _ _ _ => m

/-- Base64 body data of a part (`part.body?.data`). -/
def MessagePart.bodyData : MessagePart → Option String
  | .mk _ d _ _ => d

/-- Headers carried on a part. -/
def MessagePart.headers : MessagePart → Option (List GmailHeader)
  | .mk _ _ h _ => h

/-- Nested parts of a part. -/
def MessagePart.subparts : MessagePart → Option (List MessagePart)
  | .mk _ _ _ p => p

/-- The two extracted bodies (`{ bodyPlain, bodyHtml }`). -/
structure BodyPair where
  bodyPlain : String
  bodyHtml : String
deriving DecidableEq

/-- JavaScript truthiness of `part.body?.data`: present and nonempty
(an empty data string is falsy). -/
def jsTruthyOptStr (o : Option String) : Bool :=
  match o with
  | some s => s ≠ ""
  | none => false

mutual

/-- Embedding of `GmailService.extractBody(payload)`
(src/unnamed/part_000 lines 133-158). `dec` is the oracle for
`Buffer.from(data, 'base64').toString('utf-8')`. A payload that is itself
a `text/plain` (resp. `text/html`) part with truthy data yields that
body; otherwise, when `payload.parts` is present (an empty array is
truthy), the children are processed left to right by
`extractBodyParts`. -/
def extractBody (dec : String → String) : Option MessagePart → BodyPair
  | none => { bodyPlain := "", bodyHtml := "" }
  | some (.mk mt bd _hs sp) =>
    if mt = some "text/plain" ∧ jsTruthyOptStr bd then
      { bodyPlain := dec (bd.getD ""), bodyHtml := "" }
    else if mt = some "text/html" ∧ jsTruthyOptStr bd then
      { bodyPlain := "", bodyHtml := dec (bd.getD "") }
    else
      match sp with
      | some ps => extractBodyParts dec "" "" ps
      | none => { bodyPlain := "", bodyHtml := "" }
termination_by p => sizeOf p
decreasing_by
  all_goals simp
  all_goals omega

/-- The `for (const part of payload.parts)` loop of `extractBody`:
a direct `text/plain` (resp. `text/html`) child with truthy data assigns
the corresponding accumulator unconditionally; a child with nested
`parts` (and no direct match) is recursed into, and its results are
taken only when the accumulator of that type is still empty (falsy). -/
def extractBodyParts (dec : String → String) (bodyPlain bodyHtml : String) :
    List MessagePart → BodyPair
  | [] => { bodyPlain := bodyPlain, bodyHtml := bodyHtml }
  | (.mk mt bd hs sp) :: rest =>
    if mt = some "text/plain" ∧ jsTruthyOptStr bd then
      extractBodyParts dec (dec (bd.getD "")) bodyHtml rest
    else if mt = some "text/html" ∧ jsTruthyOptStr bd then
      extractBodyParts dec bodyPlain (dec (bd.getD "")) rest
    else if sp.isSome then
      let nested := extractBody dec (some (.mk mt bd hs sp))
      extractBodyParts dec
        (if bodyPlain = "" then nested.bodyPlain else bodyPlain)
        (if bodyHtml = "" then nested.bodyHtml else bodyHtml) rest
    else
      extractBodyParts dec bodyPlain bodyHtml rest
termination_by ps => sizeOf ps
decreasing_by
  all_goals simp
  all_goals (have hpos : 0 < sizeOf rest := by cases rest <;> simp_arith
             omega)

end

/-- A Gmail message (`gmail_v1.Schema$Message`) as `parseMessage` reads
it: the non-null-asserted `id` and `threadId`, the optional payload,
label ids and snippet. -/
structure GmailMessage where
  id : String
  threadId : String
  payload : Option MessagePart
  labelIds : Option (List String)
  snippet : Option String

/-- The normalized message record (`EmailMessage`). -/
structure EmailMessage where
  id : String
  threadId : String
  fromAddr : String
  toAddrs : List String
  ccAddrs : List String
  subject : String
  snippet : String
  bodyPlain : String
  bodyHtml : String
  receivedAt : JsDate
  isRead : Bool
deriving DecidableEq

/-- The `getHeader` closure of `parseMessage`: the value of the first
header whose name matches case-insensitively, with `|| ''` applied. -/
def getHeader (headers : List GmailHeader) (name : String) : String :=
  match headers.find? (fun h =>
      match h.name with
      | some n => toLowerStr n == toLowerStr name
      | none => false) with
  | some h => jsOrStr (h.value.getD "") ""
  | none => ""

/-- Split an address header on commas into trimmed nonempty addresses
(`.split(',').map(e => e.trim()).filter(Boolean)`). -/
def splitAddresses (s : String) : List String :=
  ((s.split (fun c => c == ',')).map String.trim).filter (fun e => e ≠ "")

/-- Embedding of `GmailService.parseMessage(message)`
(src/unnamed/part_000 lines 101-131). `dec` is the base64 decoding
oracle for `extractBody`. The received timestamp is `new Date(dateStr)`
whenever the date header string is nonempty (truthy) and `new Date()`
otherwise. -/
def parseMessage (dec : String → String) (message : GmailMessage) : EmailMessage :=
  let headers := (message.payload.bind MessagePart.headers).getD []
  let fromH := getHeader headers "from"
  let toH := splitAddresses (getHeader headers "to")
  let ccH := splitAddresses (getHeader headers "cc")
  let subject := getHeader headers "subject"
  let dateStr := getHeader headers "date"
  let bodies := extractBody dec message.payload
  let isRead := !((message.labelIds.getD []).contains "UNREAD")
  { id := message.id
    threadId := message.threadId
    fromAddr := fromH
    toAddrs := toH
    ccAddrs := ccH
    subject := subject
    snippet := message.snippet.getD ""
    bodyPlain := bodies.bodyPlain
    bodyHtml := bodies.bodyHtml
    receivedAt := if dateStr ≠ "" then .ofString dateStr else .current
    isRead := isRead }

/-- Embedding of `GmailService.listMessages` (src/unnamed/part_000 lines
56-76). `raw` is the oracle for the Gmail `users.messages.list` call:
`Except.error` means the call threw (caught, yielding `[]`); otherwise
`response.data.messages` may be absent, and each listed message's `id`
may be absent; `.map(m => m.id!).filter(Boolean)` keeps the truthy ids. -/
def listMessages (raw : Except Unit (Option (List (Option String)))) : List String :=
  match raw with
  | .error _ => []
  | .ok none => []
  | .ok (some ms) =>
    ms.filterMap (fun o =>
      match o with
      | some s => if s = "" then none else some s
      | none => none)

/-! ## Persistence store rows and state (src/supabase/schema.sql,
as used by src/backend/src/routes/sync.routes.ts)

Store-generated row ids are modelled with a counter `nextId` in the
state. `supabase` calls never throw; write failures are modelled by
success oracles in the environment, and a `.single()` lookup is
modelled by `List.find?` (under the dedup invariant at most one row
matches, so this coincides with PostgREST's single-row semantics). -/

/-- A row of the `mailboxes` table (the columns the sync routes read). -/
structure MailboxRow where
  id : String
  userId : String
  emailAddress : String
  status : String
  lastSyncedAt : Option String
  accessToken : String
  refreshToken : String
deriving DecidableEq

/-- A row of the `threads` table. -/
structure ThreadRow where
  id : Nat
  mailboxId : String
  gmailThreadId : String
  subject : String
  leadEmail : String
  lastMessageAt : JsDate
deriving DecidableEq

/-- A row of the `messages` table. -/
structure MessageRow where
  id : Nat
  threadId : Nat
  gmailMessageId : String
  direction : String
  fromAddress : String
  toAddresses : List String
  ccAddresses : List String
  subject : String
  snippet : String
  bodyPlain : String
  bodyHtml : String
  receivedAt : JsDate
  isRead : Bool
deriving DecidableEq

/-- A row of the `classifications` table. The insert on the
newly-inserted-message path carries `raw_ai_response`; the insert on the
classify-existing-message path does not. -/
structure ClassificationRow where
  id : Nat
  messageId : Nat
  sentiment : JsValue
  confidenceScore : JsValue
  interestLevel : JsValue
  summary : JsValue
  category : JsValue
  recommendedAction : JsValue
  rawAiResponse : Option ClassificationResult
deriving DecidableEq

/-- The persistence store state. -/
structure DB where
  mailboxes : List MailboxRow
  threads : List ThreadRow
  messages : List MessageRow
  classifications : List ClassificationRow
  nextId : Nat
deriving DecidableEq

/-- Lookup of an existing message by provider message id
(`.from('messages').select(...).eq('gmail_message_id', messageId).single()`). -/
def findMessage (db : DB) (gid : String) : Option MessageRow :=
  db.messages.find? (fun r => r.gmailMessageId = gid)

/-- Lookup of an existing classification by message row id. -/
def findClassification (db : DB) (mid : Nat) : Option ClassificationRow :=
  db.classifications.find? (fun r => r.messageId = mid)

/-- Lookup of a thread by mailbox id and provider thread id. -/
def findThread (db : DB) (mbId gtid : String) : Option ThreadRow :=
  db.threads.find? (fun t => t.mailboxId = mbId ∧ t.gmailThreadId = gtid)

/-- The watermark update
(`.from('mailboxes').update({ last_synced_at: ... }).eq('id', mailboxId)`). -/
def updateWatermark (db : DB) (mbId now : String) : DB :=
  { db with mailboxes := db.mailboxes.map (fun m =>
      if m.id = mbId then { m with lastSyncedAt := some now } else m) }

/-! ## Sync environment (external collaborators of one sync pass) -/

/-- The external collaborators of one sync pass over one mailbox: the
Gmail list and fetch calls, the Gemini HTTP endpoint and `JSON.parse`
(fed to `classifyEmail`), the success oracles for the three store
inserts, and the current time (`new Date().toISOString()`). -/
structure SyncEnv where
  listRaw : Except Unit (Option (List (Option String)))
  fetch : String → Option EmailMessage
  api : String → Except Unit GemResponse
  jsonParse : String → Option ParsedFields
  threadInsertOk : String → Bool
  messageInsertOk : String → Bool
  classInsertOk : Nat → Bool
  now : String

/-- The routes' call `geminiService.classifyEmail(body, subject)`:
`none` when it throws, `some` on success. -/
def SyncEnv.classifyFn (env : SyncEnv) (body subject : String) :
    Option ClassificationResult :=
  match (classifyEmail env.api env.jsonParse body subject).result with
  | .ok r => some r
  | .error _ => none

/-! ## Per-message processing (shared body of the two sync loops)

The two routes process one listed message identically as far as the
store is concerned; they differ only in which outcomes bump which
counters (see `loopSingle` and `loopFleet`). -/

/-- The outcome of processing one listed message id. -/
inductive Outcome where
  | fetchFailed : Outcome
  | alreadyClassified : Outcome
  | classifiedNow : Bool → Outcome
  | threadFailed : Outcome
  | insertFailed : Outcome
  | inserted : Bool → Bool → Outcome
deriving DecidableEq

/-- Message insert plus classification of the new message
(sync.routes.ts lines 154-223 / 406-465): insert the message row under
`tid` (store failure skips the message), then classify
`bodyPlain || snippet || ''` with subject `subject || ''`; on classify
success insert the classification row (keeping the raw payload). The
outcome records whether the classify call and the classification insert
succeeded. -/
def insertMessageAndClassify (env : SyncEnv) (db : DB) (tid : Nat)
    (messageId : String) (pm : EmailMessage) : DB × Outcome :=
  if env.messageInsertOk messageId then
    let mrow : MessageRow :=
      { id := db.nextId
        threadId := tid
        gmailMessageId := messageId
        direction := "inbound"
        fromAddress := pm.fromAddr
        toAddresses := pm.toAddrs
        ccAddresses := pm.ccAddrs
        subject := pm.subject
        snippet := pm.snippet
        bodyPlain := pm.bodyPlain
        bodyHtml := pm.bodyHtml
        receivedAt := pm.receivedAt
        isRead := pm.isRead }
    let db1 : DB := { db with messages := mrow :: db.messages, nextId := db.nextId + 1 }
    match env.classifyFn (jsOrStr (jsOrStr pm.bodyPlain pm.snippet) "")
        (jsOrStr pm.subject "") with
    | none => (db1, .inserted false false)
    | some c =>
      let ok := env.classInsertOk mrow.id
      let crow : ClassificationRow :=
        { id := db1.nextId
          messageId := mrow.id
          sentiment := c.sentiment
          confidenceScore := c.confidence_score
          interestLevel := c.interest_level
          summary := c.summary
          category := c.category
          recommendedAction := c.recommended_action
          rawAiResponse := some c }
      let db2 : DB :=
        if ok then { db1 with classifications := crow :: db1.classifications,
                              nextId := db1.nextId + 1 }
        else db1
      (db2, .inserted true ok)
  else (db, .insertFailed)

/-- Processing of one listed message id (sync.routes.ts lines 53-228 /
309-469): fetch (failure skips), dedup lookup by provider message id; an
existing classified message is a no-op; an existing unclassified message
is classified now (classification row without raw payload); a new
message gets thread lookup-or-create (store failure skips), then
`insertMessageAndClassify`. -/
def processMessage (env : SyncEnv) (mbId : String) (db : DB)
    (messageId : String) : DB × Outcome :=
  match env.fetch messageId with
  | none => (db, .fetchFailed)
  | some pm =>
    match findMessage db messageId with
    | some existing =>
      match findClassification db existing.id with
      | some _ => (db, .alreadyClassified)
      | none =>
        match env.classifyFn (jsOrStr existing.bodyPlain existing.snippet)
            existing.subject with
        | none => (db, .classifiedNow false)
        | some c =>
          let crow : ClassificationRow :=
            { id := db.nextId
              messageId := existing.id
              sentiment := c.sentiment
              confidenceScore := c.confidence_score
              interestLevel := c.interest_level
              summary := c.summary
              category := c.category
              recommendedAction := c.recommended_action
              rawAiResponse := none }
          let db1 : DB :=
            if env.classInsertOk existing.id then
              { db with classifications := crow :: db.classifications,
                        nextId := db.nextId + 1 }
            else db
          (db1, .classifiedNow true)
    | none =>
      match findThread db mbId pm.threadId with
      | some t => insertMessageAndClassify env db t.id messageId pm
      | none =>
        if env.threadInsertOk pm.threadId then
          let trow : ThreadRow :=
            { id := db.nextId
              mailboxId := mbId
              gmailThreadId := pm.threadId
              subject := pm.subject
              leadEmail := pm.fromAddr
              lastMessageAt := pm.receivedAt }
          let db1 : DB := { db with threads := trow :: db.threads, nextId := db.nextId + 1 }
          insertMessageAndClassify env db1 trow.id messageId pm
        else (db, .threadFailed)

/-! ## The two sync loops and routes -/

/-- The message loop of the single-mailbox route
(`POST /sync/mailbox/:mailboxId`, sync.routes.ts lines 50-228), with its
counter bookkeeping: `processedCount++` after a successful message
insert; `classifiedCount++` only when the classification row insert for
a newly inserted message reported no error. The classify-existing path
touches neither counter in this route. -/
def loopSingle (env : SyncEnv) (mbId : String) :
    DB → Nat → Nat → List String → DB × Nat × Nat
  | db, p, c, [] => (db, p, c)
  | db, p, c, messageId :: rest =>
    let step := processMessage env mbId db messageId
    match step.2 with
    | .inserted cOk iOk =>
      loopSingle env mbId step.1 (p + 1) (if cOk && iOk then c + 1 else c) rest
    | _ => loopSingle env mbId step.1 p c rest

/-- The message loop of the fleet route (`POST /sync/all`,
sync.routes.ts lines 309-470), with its counter bookkeeping:
`processed++` after a successful message insert; `classified++` when the
classify call for a newly inserted message succeeded (the classification
insert's error is not checked in this route), and also on the
classify-existing path when the classify call succeeded. -/
def loopFleet (env : SyncEnv) (mbId : String) :
    DB → Nat → Nat → List String → DB × Nat × Nat
  | db, p, c, [] => (db, p, c)
  | db, p, c, messageId :: rest =>
    let step := processMessage env mbId db messageId
    match step.2 with
    | .inserted cOk _ =>
      loopFleet env mbId step.1 (p + 1) (if cOk then c + 1 else c) rest
    | .classifiedNow cOk =>
      loopFleet env mbId step.1 p (if cOk then c + 1 else c) rest
    | _ => loopFleet env mbId step.1 p c rest

/-- The response body of the single-mailbox sync route. -/
structure SyncResponse where
  success : Bool
  totalMessages : Nat
  processedCount : Nat
  classifiedCount : Nat
deriving DecidableEq

/-- Embedding of the single-mailbox sync route
(`POST /sync/mailbox/:mailboxId`, sync.routes.ts lines 13-255): look up
the mailbox by id and user (404 error when absent), list message ids,
run the message loop, update the watermark unconditionally, and respond
with the aggregate counters. -/
def syncMailboxRoute (env : SyncEnv) (db : DB) (userId mailboxId : String) :
    Except String SyncResponse × DB :=
  match db.mailboxes.find? (fun m => m.id = mailboxId ∧ m.userId = userId) with
  | none => (.error "Mailbox not found", db)
  | some _mb =>
    let messageIds := listMessages env.listRaw
    let r := loopSingle env mailboxId db 0 0 messageIds
    (.ok { success := true
           totalMessages := messageIds.length
           processedCount := r.2.1
           classifiedCount := r.2.2 }, updateWatermark r.1 mailboxId env.now)

/-- One entry of the fleet route's `results` array. -/
structure MailboxResult where
  email : String
  totalMessages : Nat
  processed : Nat
  classified : Nat
deriving DecidableEq

/-- The per-mailbox iteration of the fleet route: list, loop, watermark,
result entry. (The route's per-mailbox catch branch is unreachable in
this model: the provider adapter and the store never throw.) -/
def syncOneOfFleet (envOf : String → SyncEnv) (db : DB) (mb : MailboxRow) :
    DB × MailboxResult :=
  let env := envOf mb.id
  let messageIds := listMessages env.listRaw
  let r := loopFleet env mb.id db 0 0 messageIds
  (updateWatermark r.1 mb.id env.now,
   { email := mb.emailAddress
     totalMessages := messageIds.length
     processed := r.2.1
     classified := r.2.2 })

/-- The fleet loop over a snapshot of mailboxes. -/
def fleetLoop (envOf : String → SyncEnv) : DB → List MailboxRow →
    DB × List MailboxResult
  | db, [] => (db, [])
  | db, mb :: rest =>
    let step := syncOneOfFleet envOf db mb
    let next := fleetLoop envOf step.1 rest
    (next.1, step.2 :: next.2)

/-- Embedding of the fleet sync route (`POST /sync/all`, sync.routes.ts
lines 258-504): iterate the user's `connected` mailboxes sequentially,
applying the same per-mailbox algorithm. -/
def syncAllRoute (envOf : String → SyncEnv) (db : DB) (userId : String) :
    DB × List MailboxResult :=
  let mbs := db.mailboxes.filter (fun m => m.userId = userId ∧ m.status = "connected")
  fleetLoop envOf db mbs

/-- One sync invocation: either the single-mailbox route or the fleet
route, with its own environment. -/
inductive SyncRun where
  | single : SyncEnv → String → String → SyncRun
  | fleet : (String → SyncEnv) → String → SyncRun

/-- State transition of the store under one sync invocation. -/
def applyRun (db : DB) : SyncRun → DB
  | .single env userId mailboxId => (syncMailboxRoute env db userId mailboxId).2
  | .fleet envOf userId => (syncAllRoute envOf db userId).1

/-! ## Specification-side definitions

`specDeltaSingle`/`specDeltaFleet` state, per message outcome, the
counter increments the routes are claimed to perform; `outcomesOf`
replays the loop collecting outcomes; `MsgUnique` is the dedup
invariant. These follow the spec's words and are compared against the
loop definitions above. -/

/-- The dedup invariant: at most one `messages` row per provider
message identifier. -/
def MsgUnique (db : DB) : Prop :=
  db.messages.Pairwise (fun a b => a.gmailMessageId ≠ b.gmailMessageId)

/-- The outcome sequence of one message loop (same store evolution as
the loops, without counters). -/
def outcomesOf (env : SyncEnv) (mbId : String) : DB → List String → List Outcome
  | _, [] => []
  | db, messageId :: rest =>
    let step := processMessage env mbId db messageId
    step.2 :: outcomesOf env mbId step.1 rest

/-- Counter increments `(processed, classified)` per outcome in the
single-mailbox route: a successful insert bumps `processed`, and bumps
`classified` only when both the classify call and the classification
row insert succeeded; no other outcome touches a counter. -/
def specDeltaSingle : Outcome → Nat × Nat
  | .inserted cOk iOk => (1, if cOk && iOk then 1 else 0)
  | _ => (0, 0)

/-- Counter increments `(processed, classified)` per outcome in the
fleet route: a successful insert bumps `processed`, and bumps
`classified` when the classify call succeeded (the row insert's error
is not checked); a classify-existing outcome bumps `classified` when
the classify call succeeded; no other outcome touches a counter. -/
def specDeltaFleet : Outcome → Nat × Nat
  | .inserted cOk _ => (1, if cOk then 1 else 0)
  | .classifiedNow cOk => (0, if cOk then 1 else 0)
  | _ => (0, 0)

/-- Sum of per-outcome counter increments. -/
def sumDeltas (f : Outcome → Nat × Nat) : List Outcome → Nat × Nat
  | [] => (0, 0)
  | o :: outs => ((f o).1 + (sumDeltas f outs).1, (f o).2 + (sumDeltas f outs).2)

/-! ## Concrete sample data (witness and counterexample inputs) -/

/-- A Gemini API oracle that always answers with one candidate whose
text is `"resp"`. -/
def okApiSample : String → Except Unit GemResponse :=
  fun _ => .ok { candidates := some [{ content := some { parts := some [{ text := "resp" }] } }] }

/-- A Gemini API oracle that always answers with one candidate whose
text is `"not json"`. -/
def notJsonApiSample : String → Except Unit GemResponse :=
  fun _ => .ok { candidates := some [{ content := some { parts := some [{ text := "not json" }] } }] }

/-- A `JSON.parse` oracle that always succeeds with truthy fields. -/
def okParseSample : String → Option ParsedFields :=
  fun _ => some
    { sentiment := .str "positive"
      interest_level := .str "high"
      summary := .str "s"
      recommended_action := .str "a"
      category := .str "c"
      confidence_score := .num (9 / 10) }

/-- A fetched-and-normalized sample message. -/
def pmSample : EmailMessage :=
  { id := "g1"
    threadId := "t1"
    fromAddr := "alice@x.com"
    toAddrs := ["me@y.com"]
    ccAddrs := []
    subject := "yo"
    snippet := "snip"
    bodyPlain := "hi"
    bodyHtml := ""
    receivedAt := .current
    isRead := false }

/-- An all-success sync environment listing the single message `"g1"`. -/
def sampleEnv : SyncEnv :=
  { listRaw := .ok (some [some "g1"])
    fetch := fun i => if i = "g1" then some pmSample else none
    api := okApiSample
    jsonParse := okParseSample
    threadInsertOk := fun _ => true
    messageInsertOk := fun _ => true
    classInsertOk := fun _ => true
    now := "2026-01-01T00:00:00.000Z" }

/-- Like `sampleEnv` but the provider list call fails. -/
def envListFailure : SyncEnv :=
  { sampleEnv with listRaw := .error () }

/-- One connected mailbox row. -/
def mbRow0 : MailboxRow :=
  { id := "mb1"
    userId := "u1"
    emailAddress := "a@b.c"
    status := "connected"
    lastSyncedAt := none
    accessToken := "at"
    refreshToken := "rt" }

/-- `mbRow0` with its watermark set to `sampleEnv`'s current time. -/
def mbRow0Updated : MailboxRow :=
  { mbRow0 with lastSyncedAt := some "2026-01-01T00:00:00.000Z" }

/-- A store holding just the one mailbox. -/
def sampleDb : DB :=
  { mailboxes := [mbRow0], threads := [], messages := [], classifications := [], nextId := 1 }

/-- A store where message `"g1"` is already stored but not classified. -/
def dbUnclassified : DB :=
  { mailboxes := [mbRow0]
    threads := [{ id := 1, mailboxId := "mb1", gmailThreadId := "t1",
                  subject := "yo", leadEmail := "alice@x.com", lastMessageAt := .current }]
    messages := [{ id := 2, threadId := 1, gmailMessageId := "g1", direction := "inbound",
                   fromAddress := "alice@x.com", toAddresses := [], ccAddresses := [],
                   subject := "yo", snippet := "snip", bodyPlain := "hi", bodyHtml := "",
                   receivedAt := .current, isRead := true }]
    classifications := []
    nextId := 3 }

/-- A Gmail message whose date header is present but not a date the
JavaScript date parser accepts (`new Date("not a date")` is an
Invalid Date). -/
def msgBadDate : GmailMessage :=
  { id := "id1"
    threadId := "t1"
    payload := some (.mk none none (some [{ name := some "Date", value := some "not a date" }]) none)
    labelIds := none
    snippet := none }

/-- A multipart payload with two direct `text/plain` children, data
`"A"` then `"B"`. -/
def twoPlainPayload : MessagePart :=
  .mk (some "multipart/mixed") none none
    (some [.mk (some "text/plain") (some "A") none none,
           .mk (some "text/plain") (some "B") none none])

/-- A parsed JSON object whose fields are all present and all falsy:
empty strings and an explicit `confidence_score` of `0`. -/
def parsedAllFalsy : ParsedFields :=
  { sentiment := .str ""
    interest_level := .str ""
    summary := .str ""
    recommended_action := .str ""
    category := .str ""
    confidence_score := .num 0 }

/-! ## Claim theorems -/

/-- C2: for every subject and body on which the pre-filter declares
spam, `classifyEmail` returns the synthetic result with sentiment
`spam`, interest level `none`, confidence score `0.95` and recommended
action `"Mark as spam and ignore"` (the summary being the pre-filter's
reason), and performs no call to the external classification API. -/
theorem spam_short_circuit (api : String → Except Unit GemResponse)
    (jsonParse : String → Option ParsedFields) (emailBody subject : String)
    (h : (detectSpamPatterns subject emailBody).isSpam = true) :
    classifyEmail api jsonParse emailBody subject =
      { result := .ok
          { sentiment := .str "spam"
            interest_level := .str "none"
            summary := .str (detectSpamPatterns subject emailBody).reason
            recommended_action := .str "Mark as spam and ignore"
            category := .str "spam"
            confidence_score := .num 0.95 }
        apiCalls := 0 } := by
  unfold classifyEmail
  simp [h]

/-- Witness for C2 at the spec's own example inputs. -/
theorem spam_short_circuit_witness :
    (detectSpamPatterns "Quote J4C5BVX" "please use code 6PZGMYD").isSpam = true ∧
    classifyEmail okApiSample okParseSample "please use code 6PZGMYD" "Quote J4C5BVX" =
      { result := .ok
          { sentiment := .str "spam"
            interest_level := .str "none"
            summary := .str (detectSpamPatterns "Quote J4C5BVX" "please use code 6PZGMYD").reason
            recommended_action := .str "Mark as spam and ignore"
            category := .str "spam"
            confidence_score := .num 0.95 }
        apiCalls := 0 } :=
  ⟨by decide,
   spam_short_circuit okApiSample okParseSample "please use code 6PZGMYD" "Quote J4C5BVX"
     (by decide)⟩

/-- C3: for every raw model response text whose cleaned form (after
fence stripping and brace-block extraction) is not parseable as JSON,
`classifyEmail` does not propagate a parse error: whenever the
pre-filter does not fire and the API returns a response with a first
candidate carrying a first part, the call returns `Except.ok` of the
degraded result (sentiment `neutral`, interest level `none`, confidence
`0`, the fixed failure summary and `"Review manually"`). -/
theorem parse_failure_degrades (api : String → Except Unit GemResponse)
    (jsonParse : String → Option ParsedFields) (emailBody subject : String)
    (resp : GemResponse) (cand : GemCandidate) (restc : List GemCandidate)
    (content : GemContent) (part : GemPart) (restp : List GemPart)
    (hspam : (detectSpamPatterns subject emailBody).isSpam = false)
    (happi : api (buildPrompt emailBody subject) = .ok resp)
    (hcand : resp.candidates = some (cand :: restc))
    (hcont : cand.content = some content)
    (hparts : content.parts = some (part :: restp))
    (hjson : jsonParse (cleanResponseText part.text) = none) :
    classifyEmail api jsonParse emailBody subject =
      { result := .ok degradedResult, apiCalls := 1 } := by
  simp [classifyEmail, hspam, happi, hcand, hcont, hparts, parseGeminiResponse, hjson]

/-- Witness for C3: the raw text `"not json"` yields the degraded
result rather than an error. -/
theorem parse_failure_degrades_witness :
    (detectSpamPatterns "hello" "there friend").isSpam = false ∧
    classifyEmail notJsonApiSample (fun _ => none) "there friend" "hello" =
      { result := .ok degradedResult, apiCalls := 1 } :=
  ⟨by decide,
   parse_failure_degrades notJsonApiSample (fun _ => none) "there friend" "hello"
     { candidates := some [{ content := some { parts := some [{ text := "not json" }] } }] }
     { content := some { parts := some [{ text := "not json" }] } } []
     { parts := some [{ text := "not json" }] } { text := "not json" } []
     (by decide) rfl rfl rfl rfl rfl⟩

/-- C10: the response parser applies field defaults to every falsy
field value, not only to missing fields: when the cleaned text parses
to an object whose `confidence_score` is the explicit number `0` the
returned confidence score is `0.5`, and an explicit empty-string
`summary`, `recommended_action`, `category`, `sentiment` or
`interest_level` is likewise replaced by its default. -/
theorem falsy_field_defaults (jsonParse : String → Option ParsedFields)
    (text : String) (parsed : ParsedFields)
    (h : jsonParse (cleanResponseText text) = some parsed) :
    (parsed.confidence_score = .num 0 →
      (parseGeminiResponse jsonParse text).confidence_score = .num 0.5) ∧
    (parsed.summary = .str "" →
      (parseGeminiResponse jsonParse text).summary = .str "No summary available") ∧
    (parsed.recommended_action = .str "" →
      (parseGeminiResponse jsonParse text).recommended_action = .str "Review manually") ∧
    (parsed.category = .str "" →
      (parseGeminiResponse jsonParse text).category = .str "other") ∧
    (parsed.sentiment = .str "" →
      (parseGeminiResponse jsonParse text).sentiment = .str "neutral") ∧
    (parsed.interest_level = .str "" →
      (parseGeminiResponse jsonParse text).interest_level = .str "none") := by
  simp only [parseGeminiResponse, h]
  refine ⟨?_, ?_, ?_, ?_, ?_, ?_⟩ <;> intro heq <;> simp [heq, jsOr, jsFalsy]

/-- Witness for C10: an object with every field present but falsy gets
the default confidence score `0.5`. -/
theorem falsy_field_defaults_witness :
    (fun _ : String => some parsedAllFalsy) (cleanResponseText "x") = some parsedAllFalsy ∧
    (parseGeminiResponse (fun _ => some parsedAllFalsy) "x").confidence_score = .num 0.5 :=
  ⟨rfl, (falsy_field_defaults (fun _ => some parsedAllFalsy) "x" parsedAllFalsy rfl).1 rfl⟩

/-- C6 (code evaluation at the failing input): the pre-filter's first
rule fires on `subject = ""`, `body = "meeting tomorrow"` — two 6-8
character tokens that contain no digit at all — and its reason names
them, although the code's own comment (and the claim) require tokens
mixing letters and digits. -/
theorem rule1_fires_on_allletter_tokens :
    detectSpamPatterns "" "meeting tomorrow" =
      { isSpam := true
        reason := "Spam detected: Contains random tracking codes (meeting, tomorrow)" } ∧
    "meeting".data.all (fun c => !c.isDigit) = true ∧
    "tomorrow".data.all (fun c => !c.isDigit) = true := by
  refine ⟨by decide, by decide, by decide⟩

/-- C9 counterexample: a date header that is present but not a date the
JavaScript parser accepts does not fall back to the current time — the
normalizer evaluates `new Date("not a date")` (an Invalid Date), not
`new Date()`. -/
theorem received_at_counterexample :
    (parseMessage id msgBadDate).receivedAt = .ofString "not a date" ∧
    JsDate.ofString "not a date" ≠ JsDate.current :=
  ⟨by decide, by decide⟩

/-- C9 (amended): the current-time fallback applies exactly when the
date header is absent or empty; every nonempty date header value `d` —
parseable or not — yields `new Date(d)`. -/
theorem received_at_fallback (dec : String → String) (message : GmailMessage) :
    ((parseMessage dec message).receivedAt = .current ↔
      getHeader ((message.payload.bind MessagePart.headers).getD []) "date" = "") ∧
    (getHeader ((message.payload.bind MessagePart.headers).getD []) "date" ≠ "" →
      (parseMessage dec message).receivedAt =
        .ofString (getHeader ((message.payload.bind MessagePart.headers).getD []) "date")) := by
  constructor
  · by_cases hd : getHeader ((message.payload.bind MessagePart.headers).getD []) "date" = "" <;>
      simp [parseMessage, hd]
  · intro hd
    simp [parseMessage, hd]

/-- Witness for the amended C9. -/
theorem received_at_fallback_witness :
    getHeader ((msgBadDate.payload.bind MessagePart.headers).getD []) "date" ≠ "" ∧
    (parseMessage id msgBadDate).receivedAt =
      .ofString (getHeader ((msgBadDate.payload.bind MessagePart.headers).getD []) "date") :=
  ⟨by decide, (received_at_fallback id msgBadDate).2 (by decide)⟩

/-- C4 counterexample: a multipart payload with two direct `text/plain`
children `"A"` then `"B"` yields the second, not the first encountered
in traversal order. -/
theorem body_extraction_counterexample :
    extractBody id (some twoPlainPayload) = { bodyPlain := "B", bodyHtml := "" } ∧
    ("B" : String) ≠ "A" := by
  constructor
  · simp [twoPlainPayload, extractBody, extractBodyParts, jsTruthyOptStr]
  · decide

theorem extractBodyParts_append_plain (dec : String → String) (ps : List MessagePart)
    (d : String) (hs : Option (List GmailHeader)) (hd : d ≠ "") :
    ∀ bp bh : String,
      (extractBodyParts dec bp bh
        (ps ++ [MessagePart.mk (some "text/plain") (some d) hs none])).bodyPlain = dec d := by
  induction ps with
  | nil =>
    intro bp bh
    simp [extractBodyParts, jsTruthyOptStr, hd]
  | cons p rest ih =>
    intro bp bh
    cases p with
    | mk mt bd hs' sp =>
      rw [List.cons_append]
      simp only [extractBodyParts]
      split_ifs <;> exact ih _ _

theorem extractBodyParts_nested_no_overwrite (dec : String → String) (bp bh : String)
    (mt bd : Option String) (hs : Option (List GmailHeader))
    (sp : Option (List MessagePart)) (rest : List MessagePart)
    (hbp : bp ≠ "")
    (h1 : ¬(mt = some "text/plain" ∧ jsTruthyOptStr bd = true))
    (h2 : ¬(mt = some "text/html" ∧ jsTruthyOptStr bd = true))
    (h3 : sp.isSome = true) :
    extractBodyParts dec bp bh (MessagePart.mk mt bd hs sp :: rest) =
      extractBodyParts dec bp
        (if bh = "" then (extractBody dec (some (MessagePart.mk mt bd hs sp))).bodyHtml
         else bh) rest := by
  simp only [extractBodyParts]
  rw [if_neg h1, if_neg h2, if_pos h3]
  simp [hbp]

/-- C4 (amended): within one `parts` list the traversal is left to
right, but a direct `text/plain` (resp. `text/html`) child with data
assigns unconditionally — so among several direct matches at one level
the last one wins, and in particular a payload with two direct
`text/plain` children yields the second; only the results of recursing
into a nested child respect first-found-wins: a nonempty body found
earlier is never overwritten by a nested child's result. -/
theorem body_extraction_amended :
    (∀ (dec : String → String) (ps : List MessagePart) (d : String)
        (hs : Option (List GmailHeader)), d ≠ "" →
      ∀ bp bh : String,
        (extractBodyParts dec bp bh
          (ps ++ [MessagePart.mk (some "text/plain") (some d) hs none])).bodyPlain = dec d) ∧
    (∀ (dec : String → String) (bp bh : String) (mt bd : Option String)
        (hs : Option (List GmailHeader)) (sp : Option (List MessagePart))
        (rest : List MessagePart), bp ≠ "" →
      ¬(mt = some "text/plain" ∧ jsTruthyOptStr bd = true) →
      ¬(mt = some "text/html" ∧ jsTruthyOptStr bd = true) →
      sp.isSome = true →
      extractBodyParts dec bp bh (MessagePart.mk mt bd hs sp :: rest) =
        extractBodyParts dec bp
          (if bh = "" then (extractBody dec (some (MessagePart.mk mt bd hs sp))).bodyHtml
           else bh) rest) :=
  ⟨fun dec ps d hs hd => extractBodyParts_append_plain dec ps d hs hd,
   fun dec bp bh mt bd hs sp rest hbp h1 h2 h3 =>
     extractBodyParts_nested_no_overwrite dec bp bh mt bd hs sp rest hbp h1 h2 h3⟩

/-- Witness for the amended C4: with children `"A"` then `"B"` the last
direct `text/plain` child wins. -/
theorem body_extraction_amended_witness :
    ("B" : String) ≠ "" ∧
    (extractBodyParts id "" ""
      ([MessagePart.mk (some "text/plain") (some "A") none none] ++
        [MessagePart.mk (some "text/plain") (some "B") none none])).bodyPlain = id "B" :=
  ⟨by decide,
   body_extraction_amended.1 id [MessagePart.mk (some "text/plain") (some "A") none none]
     "B" none (by decide) "" ""⟩

/-- C8 counterexample: with a failing provider list call the
single-mailbox sync does not surface an error — it responds with
success and zero counts. -/
theorem list_failure_counterexample :
    envListFailure.listRaw = .error () ∧
    (syncMailboxRoute envListFailure sampleDb "u1" "mb1").1 =
      .ok { success := true, totalMessages := 0, processedCount := 0, classifiedCount := 0 } :=
  ⟨rfl, by decide⟩

/-- C8 (amended): a failed provider list call is swallowed by the
provider adapter, which returns an empty list; the mailbox sync then
completes normally (no internal retry, a single list call is made) and
reports success with zero counts to the caller. -/
theorem list_failure_swallowed (env : SyncEnv) (db : DB) (userId mailboxId : String)
    (mb : MailboxRow)
    (hfind : db.mailboxes.find? (fun m => m.id = mailboxId ∧ m.userId = userId) = some mb)
    (hlist : env.listRaw = .error ()) :
    listMessages env.listRaw = [] ∧
    (syncMailboxRoute env db userId mailboxId).1 =
      .ok { success := true, totalMessages := 0, processedCount := 0, classifiedCount := 0 } := by
  have hempty : listMessages env.listRaw = [] := by
    rw [hlist]
    rfl
  refine ⟨hempty, ?_⟩
  simp only [syncMailboxRoute]
  rw [hfind, hempty]
  simp [loopSingle]

/-- Witness for the amended C8. -/
theorem list_failure_swallowed_witness :
    sampleDb.mailboxes.find? (fun m => m.id = "mb1" ∧ m.userId = "u1") = some mbRow0 ∧
    listMessages envListFailure.listRaw = [] ∧
    (syncMailboxRoute envListFailure sampleDb "u1" "mb1").1 =
      .ok { success := true, totalMessages := 0, processedCount := 0, classifiedCount := 0 } :=
  ⟨by decide,
   list_failure_swallowed envListFailure sampleDb "u1" "mb1" mbRow0 (by decide) rfl⟩

/-- C5 counterexample: in the single-mailbox route, a run whose only
message exists unclassified and classifies successfully (outcome
`classifiedNow true`) reports `classifiedCount = 0` — the row was
inserted (the store now holds one classification) but the counter was
not incremented, contradicting "ClassifiedNow increments classified"
for that route. -/
theorem counters_counterexample :
    (processMessage sampleEnv "mb1" dbUnclassified "g1").2 = .classifiedNow true ∧
    (syncMailboxRoute sampleEnv dbUnclassified "u1" "mb1").1 =
      .ok { success := true, totalMessages := 1, processedCount := 0, classifiedCount := 0 } ∧
    (syncMailboxRoute sampleEnv dbUnclassified "u1" "mb1").2.classifications.length = 1 :=
  ⟨by decide, by decide, by decide⟩

theorem loopSingle_counters (env : SyncEnv) (mbId : String) :
    ∀ (ids : List String) (db : DB) (p c : Nat),
      (loopSingle env mbId db p c ids).2 =
        (p + (sumDeltas specDeltaSingle (outcomesOf env mbId db ids)).1,
         c + (sumDeltas specDeltaSingle (outcomesOf env mbId db ids)).2) := by
  intro ids
  induction ids with
  | nil =>
    intro db p c
    simp [loopSingle, outcomesOf, sumDeltas]
  | cons messageId rest ih =>
    intro db p c
    simp only [loopSingle, outcomesOf, sumDeltas]
    cases hstep : (processMessage env mbId db messageId).2 with
    | fetchFailed => rw [ih]; simp [specDeltaSingle, Prod.ext_iff]
    | alreadyClassified => rw [ih]; simp [specDeltaSingle, Prod.ext_iff]
    | classifiedNow cOk => rw [ih]; simp [specDeltaSingle, Prod.ext_iff]
    | threadFailed => rw [ih]; simp [specDeltaSingle, Prod.ext_iff]
    | insertFailed => rw [ih]; simp [specDeltaSingle, Prod.ext_iff]
    | inserted cOk iOk =>
      rw [ih]
      cases cOk <;> cases iOk <;> simp [specDeltaSingle, Prod.ext_iff] <;> omega

theorem loopFleet_counters (env : SyncEnv) (mbId : String) :
    ∀ (ids : List String) (db : DB) (p c : Nat),
      (loopFleet env mbId db p c ids).2 =
        (p + (sumDeltas specDeltaFleet (outcomesOf env mbId db ids)).1,
         c + (sumDeltas specDeltaFleet (outcomesOf env mbId db ids)).2) := by
  intro ids
  induction ids with
  | nil =>
    intro db p c
    simp [loopFleet, outcomesOf, sumDeltas]
  | cons messageId rest ih =>
    intro db p c
    simp only [loopFleet, outcomesOf, sumDeltas]
    cases hstep : (processMessage env mbId db messageId).2 with
    | fetchFailed => rw [ih]; simp [specDeltaFleet, Prod.ext_iff]
    | alreadyClassified => rw [ih]; simp [specDeltaFleet, Prod.ext_iff]
    | classifiedNow cOk =>
      rw [ih]
      cases cOk
      · simp [specDeltaFleet, Prod.ext_iff]
      · simp [specDeltaFleet, Prod.ext_iff]
        omega
    | threadFailed => rw [ih]; simp [specDeltaFleet, Prod.ext_iff]
    | insertFailed => rw [ih]; simp [specDeltaFleet, Prod.ext_iff]
    | inserted cOk iOk =>
      rw [ih]
      cases cOk <;> simp [specDeltaFleet, Prod.ext_iff] <;> omega

/-- C5 (amended): the aggregate counters of a message loop are the sum
of per-outcome increments, and the two routes differ: in the
single-mailbox loop an `inserted` outcome bumps `processed` and bumps
`classified` only when both the classify call and the classification
row insert succeeded, while `classifiedNow` and `alreadyClassified`
bump neither counter; in the fleet loop an `inserted` outcome bumps
`processed` and bumps `classified` whenever the classify call succeeded
(the row insert's error is not checked), and `classifiedNow` with a
successful classify call bumps `classified`; `alreadyClassified` bumps
neither. -/
theorem counters_amended (env : SyncEnv) (mbId : String) (db : DB) (ids : List String) :
    (loopSingle env mbId db 0 0 ids).2 =
      sumDeltas specDeltaSingle (outcomesOf env mbId db ids) ∧
    (loopFleet env mbId db 0 0 ids).2 =
      sumDeltas specDeltaFleet (outcomesOf env mbId db ids) := by
  constructor
  · rw [loopSingle_counters]
    simp
  · rw [loopFleet_counters]
    simp

theorem findMessage_none_not_mem (db : DB) (gid : String)
    (h : findMessage db gid = none) :
    ∀ r ∈ db.messages, r.gmailMessageId ≠ gid := by
  intro r hr heq
  unfold findMessage at h
  rw [List.find?_eq_none] at h
  have hb := h r hr
  simp [heq] at hb

theorem insertMessageAndClassify_preserves (env : SyncEnv) (db : DB) (tid : Nat)
    (messageId : String) (pm : EmailMessage)
    (h : MsgUnique db) (hnone : findMessage db messageId = none) :
    MsgUnique (insertMessageAndClassify env db tid messageId pm).1 := by
  have hmem := findMessage_none_not_mem db messageId hnone
  have hcons : MsgUnique
      { db with
        messages :=
          { id := db.nextId, threadId := tid, gmailMessageId := messageId,
            direction := "inbound", fromAddress := pm.fromAddr,
            toAddresses := pm.toAddrs, ccAddresses := pm.ccAddrs,
            subject := pm.subject, snippet := pm.snippet,
            bodyPlain := pm.bodyPlain, bodyHtml := pm.bodyHtml,
            receivedAt := pm.receivedAt, isRead := pm.isRead } :: db.messages,
        nextId := db.nextId + 1 } := by
    unfold MsgUnique at *
    refine List.pairwise_cons.mpr ⟨?_, h⟩
    intro b hb
    exact fun hx => hmem b hb hx.symm
  unfold insertMessageAndClassify
  split
  · split
    · exact hcons
    · dsimp only
      split
      · exact hcons
      · exact hcons
  · exact h

theorem processMessage_preserves (env : SyncEnv) (mbId : String) (db : DB)
    (messageId : String) (h : MsgUnique db) :
    MsgUnique (processMessage env mbId db messageId).1 := by
  unfold processMessage
  split
  · exact h
  · split
    · split
      · exact h
      · split
        · exact h
        · split
          · exact h
          · exact h
    · next hnone =>
      split
      · exact insertMessageAndClassify_preserves env db _ messageId _ h hnone
      · split
        · exact insertMessageAndClassify_preserves env _ _ messageId _ h hnone
        · exact h

theorem loopSingle_preserves (env : SyncEnv) (mbId : String) :
    ∀ (ids : List String) (db : DB) (p c : Nat),
      MsgUnique db → MsgUnique (loopSingle env mbId db p c ids).1 := by
  intro ids
  induction ids with
  | nil => intro db p c h; exact h
  | cons messageId rest ih =>
    intro db p c h
    have h' := processMessage_preserves env mbId db messageId h
    simp only [loopSingle]
    split <;> exact ih _ _ _ h'

theorem loopFleet_preserves (env : SyncEnv) (mbId : String) :
    ∀ (ids : List String) (db : DB) (p c : Nat),
      MsgUnique db → MsgUnique (loopFleet env mbId db p c ids).1 := by
  intro ids
  induction ids with
  | nil => intro db p c h; exact h
  | cons messageId rest ih =>
    intro db p c h
    have h' := processMessage_preserves env mbId db messageId h
    simp only [loopFleet]
    split <;> exact ih _ _ _ h'

theorem syncMailboxRoute_preserves (env : SyncEnv) (db : DB) (userId mailboxId : String)
    (h : MsgUnique db) : MsgUnique (syncMailboxRoute env db userId mailboxId).2 := by
  unfold syncMailboxRoute
  split
  · exact h
  · exact loopSingle_preserves env mailboxId (listMessages env.listRaw) db 0 0 h

theorem fleetLoop_preserves (envOf : String → SyncEnv) :
    ∀ (mbs : List MailboxRow) (db : DB),
      MsgUnique db → MsgUnique (fleetLoop envOf db mbs).1 := by
  intro mbs
  induction mbs with
  | nil => intro db h; exact h
  | cons mb rest ih =>
    intro db h
    exact ih _ (loopFleet_preserves (envOf mb.id) mb.id
      (listMessages (envOf mb.id).listRaw) db 0 0 h)

/-- C1: for every provider message id, at most one `messages` row exists
after any number of sync runs (single-mailbox or fleet, in any order,
under any environments): both operations look up the existing message by
provider id before inserting, and a found message is never inserted
again, so the pairwise-distinct invariant on `gmail_message_id` is
preserved. -/
theorem dedup_invariant (runs : List SyncRun) (db : DB) (h : MsgUnique db) :
    MsgUnique (runs.foldl applyRun db) := by
  induction runs generalizing db with
  | nil => exact h
  | cons run rest ih =>
    simp only [List.foldl]
    apply ih
    cases run with
    | single env userId mailboxId => exact syncMailboxRoute_preserves env db userId mailboxId h
    | fleet envOf userId => exact fleetLoop_preserves envOf _ db h

/-- Witness for C1: two successive single-mailbox runs over the sample
store keep the invariant. -/
theorem dedup_invariant_witness :
    MsgUnique sampleDb ∧
    MsgUnique ([SyncRun.single sampleEnv "u1" "mb1",
                SyncRun.single sampleEnv "u1" "mb1"].foldl applyRun sampleDb) :=
  ⟨by simp [MsgUnique, sampleDb],
   dedup_invariant [SyncRun.single sampleEnv "u1" "mb1", SyncRun.single sampleEnv "u1" "mb1"]
     sampleDb (by simp [MsgUnique, sampleDb])⟩

theorem insertMessageAndClassify_mailboxes (env : SyncEnv) (db : DB) (tid : Nat)
    (messageId : String) (pm : EmailMessage) :
    (insertMessageAndClassify env db tid messageId pm).1.mailboxes = db.mailboxes := by
  unfold insertMessageAndClassify
  split
  · split
    · rfl
    · dsimp only
      split
      · rfl
      · rfl
  · rfl

theorem processMessage_mailboxes (env : SyncEnv) (mbId : String) (db : DB)
    (messageId : String) :
    (processMessage env mbId db messageId).1.mailboxes = db.mailboxes := by
  unfold processMessage
  split
  · rfl
  · split
    · split
      · rfl
      · split
        · rfl
        · dsimp only
          split
          · rfl
          · rfl
    · split
      · exact insertMessageAndClassify_mailboxes env db _ messageId _
      · split
        · exact insertMessageAndClassify_mailboxes env _ _ messageId _
        · rfl

theorem loopSingle_mailboxes (env : SyncEnv) (mbId : String) :
    ∀ (ids : List String) (db : DB) (p c : Nat),
      (loopSingle env mbId db p c ids).1.mailboxes = db.mailboxes := by
  intro ids
  induction ids with
  | nil => intro db p c; rfl
  | cons messageId rest ih =>
    intro db p c
    simp only [loopSingle]
    split <;> rw [ih, processMessage_mailboxes]

theorem loopFleet_mailboxes (env : SyncEnv) (mbId : String) :
    ∀ (ids : List String) (db : DB) (p c : Nat),
      (loopFleet env mbId db p c ids).1.mailboxes = db.mailboxes := by
  intro ids
  induction ids with
  | nil => intro db p c; rfl
  | cons messageId rest ih =>
    intro db p c
    simp only [loopFleet]
    split <;> rw [ih, processMessage_mailboxes]

theorem updateWatermark_mem (db : DB) (mid now : String) (r : MailboxRow)
    (hr : r ∈ (updateWatermark db mid now).mailboxes) :
    ∃ m, m ∈ db.mailboxes ∧
      r = (if m.id = mid then { m with lastSyncedAt := some now } else m) := by
  unfold updateWatermark at hr
  simp only [List.mem_map] at hr
  obtain ⟨m, hm, heq⟩ := hr
  exact ⟨m, hm, heq.symm⟩

theorem updateWatermark_id_mark (db : DB) (mid now : String) (r : MailboxRow)
    (hr : r ∈ (updateWatermark db mid now).mailboxes) (hid : r.id = mid) :
    r.lastSyncedAt = some now := by
  obtain ⟨m, _, heq⟩ := updateWatermark_mem db mid now r hr
  by_cases hm : m.id = mid
  · rw [heq]
    simp [hm]
  · rw [heq] at hid
    simp [hm] at hid

theorem syncOneOfFleet_mark (envOf : String → SyncEnv) (db : DB) (mb : MailboxRow)
    (r : MailboxRow) (hr : r ∈ (syncOneOfFleet envOf db mb).1.mailboxes)
    (hid : r.id = mb.id) :
    r.lastSyncedAt = some (envOf mb.id).now :=
  updateWatermark_id_mark _ mb.id (envOf mb.id).now r hr hid

theorem syncOneOfFleet_mem (envOf : String → SyncEnv) (db : DB) (mb : MailboxRow)
    (r : MailboxRow) (hr : r ∈ (syncOneOfFleet envOf db mb).1.mailboxes) :
    ∃ m, m ∈ db.mailboxes ∧
      r = (if m.id = mb.id then { m with lastSyncedAt := some (envOf mb.id).now } else m) := by
  have hr' : r ∈ (updateWatermark
      (loopFleet (envOf mb.id) mb.id db 0 0 (listMessages (envOf mb.id).listRaw)).1
      mb.id (envOf mb.id).now).mailboxes := hr
  obtain ⟨m, hm, heq⟩ := updateWatermark_mem _ mb.id (envOf mb.id).now r hr'
  rw [loopFleet_mailboxes] at hm
  exact ⟨m, hm, heq⟩

theorem fleetLoop_preserves_mark (envOf : String → SyncEnv) (x : String) :
    ∀ (mbs : List MailboxRow) (db : DB),
      (∀ r ∈ db.mailboxes, r.id = x → r.lastSyncedAt = some (envOf x).now) →
      ∀ r ∈ (fleetLoop envOf db mbs).1.mailboxes, r.id = x →
        r.lastSyncedAt = some (envOf x).now := by
  intro mbs
  induction mbs with
  | nil => intro db h; exact h
  | cons mb rest ih =>
    intro db h r hr hid
    refine ih (syncOneOfFleet envOf db mb).1 ?_ r hr hid
    intro r' hr' hid'
    obtain ⟨m, hm, heq⟩ := syncOneOfFleet_mem envOf db mb r' hr'
    by_cases hmid : m.id = mb.id
    · have hid'' : mb.id = x := by
        rw [heq] at hid'
        simpa [hmid] using hid'
      rw [heq]
      simp [hmid, hid'']
    · rw [heq] at hid' ⊢
      simp only [hmid, if_neg, if_false] at hid' ⊢
      exact h m hm hid'

theorem fleetLoop_sets_mark (envOf : String → SyncEnv) :
    ∀ (mbs : List MailboxRow) (db : DB) (mb : MailboxRow), mb ∈ mbs →
      ∀ r ∈ (fleetLoop envOf db mbs).1.mailboxes, r.id = mb.id →
        r.lastSyncedAt = some (envOf mb.id).now := by
  intro mbs
  induction mbs with
  | nil => intro db mb h; cases h
  | cons hd rest ih =>
    intro db mb hmem r hr hid
    rcases List.mem_cons.mp hmem with heq | htl
    · subst heq
      refine fleetLoop_preserves_mark envOf mb.id rest (syncOneOfFleet envOf db mb).1
        ?_ r hr hid
      intro r' hr' hid'
      exact syncOneOfFleet_mark envOf db mb r' hr' hid'
    · exact ih (syncOneOfFleet envOf db hd).1 mb htl r hr hid

/-- C7: after every sync run of a mailbox — whatever the per-message
fetch, insert or classification failures the environment injects — the
mailbox's `last_synced_at` watermark is updated to the run's current
time: in the single-mailbox route for the synced mailbox id, and in the
fleet route for every mailbox in the connected snapshot. -/
theorem watermark_always_updated :
    (∀ (env : SyncEnv) (db : DB) (userId mailboxId : String) (mb : MailboxRow),
      db.mailboxes.find? (fun m => m.id = mailboxId ∧ m.userId = userId) = some mb →
      ∀ r ∈ (syncMailboxRoute env db userId mailboxId).2.mailboxes,
        r.id = mailboxId → r.lastSyncedAt = some env.now) ∧
    (∀ (envOf : String → SyncEnv) (db : DB) (userId : String) (mb : MailboxRow),
      mb ∈ db.mailboxes.filter (fun m => m.userId = userId ∧ m.status = "connected") →
      ∀ r ∈ (syncAllRoute envOf db userId).1.mailboxes,
        r.id = mb.id → r.lastSyncedAt = some (envOf mb.id).now) := by
  constructor
  · intro env db userId mailboxId mb hfind r hr hid
    unfold syncMailboxRoute at hr
    rw [hfind] at hr
    exact updateWatermark_id_mark _ mailboxId env.now r hr hid
  · intro envOf db userId mb hmem r hr hid
    exact fleetLoop_sets_mark envOf _ db mb hmem r hr hid

/-- Witness for C7: the sample run stamps the sample mailbox with the
run's time. -/
theorem watermark_always_updated_witness :
    mbRow0Updated ∈ (syncMailboxRoute sampleEnv sampleDb "u1" "mb1").2.mailboxes ∧
    mbRow0Updated.lastSyncedAt = some sampleEnv.now :=
  ⟨by decide,
   watermark_always_updated.1 sampleEnv sampleDb "u1" "mb1" mbRow0 (by decide)
     mbRow0Updated (by decide) (by decide)⟩
